import Mathlib

/-!
PolyHook 2.0, `PLH::Instruction` (headers/Instruction.hpp).

A shallow embedding of the instruction record and of its displacement
relocation arithmetic.

Machine integers are natural numbers (unsigned) or integers (signed) with the
wrap-around written out: `uint64_t` / `size_t` values are naturals below
`2^64`, `uint8_t` values are naturals below `2^8`, `int64_t` values are
integers in `[-2^63, 2^63)`.  The target is x86 / x64, hence little-endian.
-/

namespace PLH

set_option autoImplicit false

/-! ## Machine arithmetic -/

/-- Unsigned 64-bit addition: `a + b` modulo `2^64`. -/
def add64 (a b : Nat) : Nat := (a + b) % 2 ^ 64

/-- Unsigned 64-bit subtraction: `a - b` modulo `2^64`. -/
def sub64 (a b : Nat) : Nat := (a % 2 ^ 64 + 2 ^ 64 - b % 2 ^ 64) % 2 ^ 64

/-- Conversion of a 64-bit pattern to `int64_t` (two's complement). -/
def toInt64 (x : Nat) : Int :=
  if x % 2 ^ 64 < 2 ^ 63 then ((x % 2 ^ 64 : Nat) : Int)
  else ((x % 2 ^ 64 : Nat) : Int) - 2 ^ 64

/-- Conversion of a signed value to `uint64_t`: the value modulo `2^64`. -/
def toUInt64 (v : Int) : Nat := (v % 2 ^ 64).toNat

/-- Conversion of a `size_t` value to `uint8_t` (the implicit narrowing at a
call whose parameter is `uint8_t`). -/
def toUInt8 (x : Nat) : Nat := x % 2 ^ 8

/-- The specification's reading of "evaluated as a signed 64-bit value,
wrap-around modulo 2^64": the representative of `z` in `[-2^63, 2^63)`. -/
def wrapInt64 (z : Int) : Int := (z + 2 ^ 63) % 2 ^ 64 - 2 ^ 63

/-! ## The displacement union -/

/-- The union `Displacement { int64_t Relative; uint64_t Absolute; }`: eight bytes
of storage, held as the 64-bit pattern, with the two members as views. -/
structure Displacement where
  bits : Nat
deriving DecidableEq

/-- Member `Relative`: the storage read as `int64_t`. -/
def Displacement.Relative (d : Displacement) : Int := toInt64 d.bits

/-- Member `Absolute`: the storage read as `uint64_t`. -/
def Displacement.Absolute (d : Displacement) : Nat := d.bits

/-- Store through member `Relative`. -/
def Displacement.setRelative (v : Int) : Displacement := ⟨toUInt64 v⟩

/-- Store through member `Absolute`. -/
def Displacement.setAbsolute (v : Nat) : Displacement := ⟨v⟩

/-- The object representation of the union: its eight bytes, least significant
first (little-endian target). -/
def Displacement.objectBytes (d : Displacement) : List Nat :=
  (List.range 8).map fun i => d.bits / 256 ^ i % 256

/-- The buffer that `std::memcpy(&dst[off], src, n)` leaves when the call is
defined, `src` being the object representation of the source object: byte
`off + i` of the buffer becomes byte `i` of the source, for every `i < n`.
The call itself is `Exec.memcpy`; it is undefined when it leaves the buffer or
the source object, and there this function says nothing about the program (it
is made total by leaving alone what the copy cannot reach). -/
def memcpy (dst : List Nat) (off : Nat) (src : List Nat) (n : Nat) : List Nat :=
  (List.range dst.length).map fun j =>
    if off ≤ j ∧ j - off < n then src.getD (j - off) (dst.getD j 0) else dst.getD j 0

/-! ## The instruction record -/

/-- The data members of `class Instruction`. `m_uid` is the value held by the
`UID` member (`getUID` returns `m_uid.val`). -/
structure Instruction where
  m_address : Nat
  m_displacement : Displacement
  m_dispOffset : Nat
  m_isRelative : Bool
  m_hasDisplacement : Bool
  m_bytes : List Nat
  m_mnemonic : String
  m_opStr : String
  m_uid : Int
deriving DecidableEq

namespace Instruction

/-- Every member holds a value of its C++ type. -/
def WF (s : Instruction) : Prop :=
  s.m_address < 2 ^ 64 ∧ s.m_displacement.bits < 2 ^ 64 ∧ s.m_dispOffset < 2 ^ 8 ∧
  (∀ b ∈ s.m_bytes, b < 2 ^ 8) ∧ s.m_bytes.length < 2 ^ 64

instance (s : Instruction) : Decidable s.WF := by
  unfold WF; exact inferInstance

/-- Member `Init`: overwrites every member except `m_uid` and clears
`m_hasDisplacement`. -/
def Init (s : Instruction) (address : Nat) (displacement : Displacement)
    (displacementOffset : Nat) (isRelative : Bool) (bytes : List Nat)
    (mnemonic opStr : String) : Instruction :=
  { s with
    m_address := address
    m_displacement := displacement
    m_dispOffset := displacementOffset
    m_isRelative := isRelative
    m_bytes := bytes
    m_mnemonic := mnemonic
    m_opStr := opStr
    m_hasDisplacement := false }

/-- The constructor: `m_uid` is initialised with `uid`, the value obtained from
`UID::singleton()`, then `Init` runs.  The members `Init` overwrites are
uninitialised before it runs; the model starts them at zero / empty. -/
def construct (uid : Int) (address : Nat) (displacement : Displacement)
    (displacementOffset : Nat) (isRelative : Bool) (bytes : List Nat)
    (mnemonic opStr : String) : Instruction :=
  Init ⟨0, ⟨0⟩, 0, false, false, [], "", "", uid⟩
    address displacement displacementOffset isRelative bytes mnemonic opStr

/-- The second constructor: the bytes come as an array with its length. -/
def constructArr (uid : Int) (address : Nat) (displacement : Displacement)
    (displacementOffset : Nat) (isRelative : Bool) (bytes : List Nat) (arrLen : Nat)
    (mnemonic opStr : String) : Instruction :=
  construct uid address displacement displacementOffset isRelative (bytes.take arrLen)
    mnemonic opStr

/-- Assignment `operator=`: re-initialises the left-hand side from the members of `rhs`. -/
def assign (s rhs : Instruction) : Instruction :=
  Init s rhs.m_address rhs.m_displacement rhs.m_dispOffset rhs.m_isRelative rhs.m_bytes
    rhs.m_mnemonic rhs.m_opStr

def getAddress (s : Instruction) : Nat := s.m_address

def setAddress (s : Instruction) (address : Nat) : Instruction :=
  { s with m_address := address }

def getDisplacement (s : Instruction) : Displacement := s.m_displacement

def setDisplacementOffset (s : Instruction) (offset : Nat) : Instruction :=
  { s with m_dispOffset := offset }

def getDisplacementOffset (s : Instruction) : Nat := s.m_dispOffset

def isDisplacementRelative (s : Instruction) : Bool := s.m_isRelative

def hasDisplacement (s : Instruction) : Bool := s.m_hasDisplacement

def getBytes (s : Instruction) : List Nat := s.m_bytes

def getMnemonic (s : Instruction) : String := s.m_mnemonic

def getFullName (s : Instruction) : String := s.m_mnemonic ++ " " ++ s.m_opStr

def size (s : Instruction) : Nat := s.m_bytes.length

def getUID (s : Instruction) : Int := s.m_uid

/-- Member `getDestination`: `m_address + m_displacement.Relative + size()` in 64-bit
unsigned arithmetic (the signed member is converted to `uint64_t` for the
sum) when the displacement is relative, `m_displacement.Absolute` otherwise. -/
def getDestination (s : Instruction) : Nat :=
  if s.isDisplacementRelative then
    add64 (add64 s.m_address (toUInt64 s.m_displacement.Relative)) (s.size % 2 ^ 64)
  else s.m_displacement.Absolute

/-- Member `setRelativeDisplacement`: stores the value through `Relative`, sets both
flags, then copies `size() - getDisplacementOffset()` bytes (a `size_t`
difference) of the union into the buffer at the displacement offset.  This is
the record the call leaves when its copy is defined, that is when
`displacementOffset < size()` and `size() - displacementOffset <= 8`; the call
with its domain is `Exec.setRelativeDisplacement`. -/
def setRelativeDisplacement (s : Instruction) (displacement : Int) : Instruction :=
  let d := Displacement.setRelative displacement
  { s with
    m_displacement := d
    m_isRelative := true
    m_hasDisplacement := true
    m_bytes := memcpy s.m_bytes s.getDisplacementOffset d.objectBytes
      (sub64 s.size s.getDisplacementOffset) }

/-- Member `setAbsoluteDisplacement`: as the relative setter, through `Absolute` and
with `m_isRelative` false; the call with its domain is
`Exec.setAbsoluteDisplacement`. -/
def setAbsoluteDisplacement (s : Instruction) (displacement : Nat) : Instruction :=
  let d := Displacement.setAbsolute displacement
  { s with
    m_displacement := d
    m_isRelative := false
    m_hasDisplacement := true
    m_bytes := memcpy s.m_bytes s.getDisplacementOffset d.objectBytes
      (sub64 s.size s.getDisplacementOffset) }

/-- Static member `calculateRelativeDisplacement<int64_t>`: both branches are computed in
`uint64_t` (the literal `0` and the promoted `insSize` are converted to it) and
the result is converted to `int64_t` on return. -/
def calculateRelativeDisplacement (from_ to_ insSize : Nat) : Int :=
  if to_ < from_ then toInt64 (sub64 (sub64 0 (sub64 from_ to_)) insSize)
  else toInt64 (sub64 to_ (add64 from_ insSize))

/-- Member `setDestination`: returns at once without a displacement; otherwise
re-targets through the relative formula (with `size()` narrowed to the
`uint8_t` parameter) or through the absolute setter.  As for the setters, this
is the record the call leaves when the copy it reaches is defined; the call
with its domain is `Exec.setDestination`. -/
def setDestination (s : Instruction) (dest : Nat) : Instruction :=
  if !s.hasDisplacement then s
  else if s.isDisplacementRelative then
    let newRelativeDisp := calculateRelativeDisplacement s.getAddress dest (toUInt8 s.size)
    s.setRelativeDisplacement newRelativeDisp
  else s.setAbsoluteDisplacement dest

/-- Comparison `operator==`: equality of the identities. -/
def eq (lhs rhs : Instruction) : Bool := lhs.getUID == rhs.getUID

end Instruction

/-! ## The calls with their domain of definition

The displacement setters copy with `std::memcpy` and check no bound.  The copy
is defined only when it starts at an element of the byte buffer, writes inside
the buffer and reads inside the eight bytes of the union; otherwise the
behaviour of the program is undefined (it writes outside the buffer or reads
past the union).  Here the calls return `none` in that case. -/

namespace Exec

/-- The call `std::memcpy(&dst[off], src, n)`: defined when `dst[off]` is an
element of the buffer, the `n` bytes written stay inside the buffer and the `n`
bytes read stay inside the source object; `none` is undefined behaviour. -/
def memcpy (dst : List Nat) (off : Nat) (src : List Nat) (n : Nat) : Option (List Nat) :=
  if off < dst.length ∧ off + n ≤ dst.length ∧ n ≤ src.length then
    some (PLH.memcpy dst off src n)
  else none

/-- The call of `setRelativeDisplacement`: the three members are assigned, then
`size() - getDisplacementOffset()` bytes (a `size_t` difference) of the union
are copied to the buffer at the displacement offset. -/
def setRelativeDisplacement (s : Instruction) (displacement : Int) : Option Instruction :=
  let d := Displacement.setRelative displacement
  (memcpy s.m_bytes s.getDisplacementOffset d.objectBytes
      (sub64 s.size s.getDisplacementOffset)).map fun bytes =>
    { s with
      m_displacement := d
      m_isRelative := true
      m_hasDisplacement := true
      m_bytes := bytes }

/-- The call of `setAbsoluteDisplacement`. -/
def setAbsoluteDisplacement (s : Instruction) (displacement : Nat) : Option Instruction :=
  let d := Displacement.setAbsolute displacement
  (memcpy s.m_bytes s.getDisplacementOffset d.objectBytes
      (sub64 s.size s.getDisplacementOffset)).map fun bytes =>
    { s with
      m_displacement := d
      m_isRelative := false
      m_hasDisplacement := true
      m_bytes := bytes }

/-- The call of `setDestination`: it returns at its guard without a
displacement and otherwise calls one of the two setters. -/
def setDestination (s : Instruction) (dest : Nat) : Option Instruction :=
  if !s.hasDisplacement then some s
  else if s.isDisplacementRelative then
    let newRelativeDisp :=
      Instruction.calculateRelativeDisplacement s.getAddress dest (toUInt8 s.size)
    setRelativeDisplacement s newRelativeDisp
  else setAbsoluteDisplacement s dest

end Exec

/-! ## Reading a byte run back (specification side) -/

/-- The unsigned little-endian value of a byte run. -/
def decodeLE : List Nat → Nat
  | [] => 0
  | b :: bs => b + 256 * decodeLE bs

/-- The specification's decoding of a byte run as a little-endian
two's-complement integer, sign-extended from its top bit. -/
def decodeSignedLE (bs : List Nat) : Int :=
  if 2 * decodeLE bs < 256 ^ bs.length then (decodeLE bs : Int)
  else (decodeLE bs : Int) - (256 : Int) ^ bs.length

open Instruction

/-! ## Concrete records used in the worked examples -/

/-- A five-byte relative call at `0x1000` whose displacement is encoded from
byte 1: built by the constructor, then given the relative displacement `0x10`. -/
def call1000 : Instruction :=
  (construct 1 0x1000 ⟨0⟩ 1 true [0xE8, 0, 0, 0, 0] "call" "0x1015").setRelativeDisplacement 0x10

/-- A record of 256 bytes whose last six bytes hold the displacement: built by
the constructor, then given the relative displacement `0`. -/
def long256 : Instruction :=
  (construct 2 0x2000 ⟨0⟩ 250 true (List.replicate 256 0x90) "jmp" "far").setRelativeDisplacement 0

/-- The record `call1000` after `setDisplacementOffset 200`: it has a relative
displacement, five bytes and an offset beyond its buffer. -/
def far200 : Instruction := call1000.setDisplacementOffset 200

/-- An absolute record with five bytes and an offset beyond its buffer:
`call1000` after `setAbsoluteDisplacement 0x7000` and
`setDisplacementOffset 200`. -/
def farAbs200 : Instruction :=
  (call1000.setAbsoluteDisplacement 0x7000).setDisplacementOffset 200

/-- A record of twelve bytes with eleven bytes from its offset on: built by the
constructor with offset 4, given the relative displacement `0x10`, then
`setDisplacementOffset 1`. -/
def wide12 : Instruction :=
  ((construct 6 0x1000 ⟨0⟩ 4 true (List.replicate 12 0x90) "call"
    "wide").setRelativeDisplacement 0x10).setDisplacementOffset 1

/-- An absolute record of twelve bytes with eleven bytes from its offset on:
built by the constructor with offset 4, given the absolute displacement
`0x7000`, then `setDisplacementOffset 1`. -/
def wideAbs12 : Instruction :=
  ((construct 8 0x1000 ⟨0⟩ 4 false (List.replicate 12 0x90) "call"
    "wide").setAbsoluteDisplacement 0x7000).setDisplacementOffset 1

/-! ## Sequences of mutating calls -/

/-- The public mutating members of the class, each with its arguments. -/
inductive Mutator where
  | setAddress (address : Nat)
  | setDisplacementOffset (offset : Nat)
  | setDestination (dest : Nat)
  | setRelativeDisplacement (displacement : Int)
  | setAbsoluteDisplacement (displacement : Nat)
  | assign (rhs : Instruction)

/-- One call of a mutating member on a record. -/
def Mutator.apply (s : Instruction) : Mutator → Instruction
  | .setAddress address => s.setAddress address
  | .setDisplacementOffset offset => s.setDisplacementOffset offset
  | .setDestination dest => s.setDestination dest
  | .setRelativeDisplacement displacement => s.setRelativeDisplacement displacement
  | .setAbsoluteDisplacement displacement => s.setAbsoluteDisplacement displacement
  | .assign rhs => s.assign rhs

/-- A sequence of calls, applied from left to right. -/
def run (s : Instruction) (ops : List Mutator) : Instruction :=
  ops.foldl Mutator.apply s

/-- The caller's side of the offset bound for one call on the record `s`: a
displacement setter is called only while the offset is inside the buffer, and
the offset of a record that has a displacement is only moved inside it. -/
def Mutator.keepsOffsetInside (s : Instruction) : Mutator → Prop
  | .setDisplacementOffset offset => s.hasDisplacement = true → offset < s.size
  | .setRelativeDisplacement _ => s.getDisplacementOffset < s.size
  | .setAbsoluteDisplacement _ => s.getDisplacementOffset < s.size
  | _ => True

instance (s : Instruction) (op : Mutator) : Decidable (op.keepsOffsetInside s) := by
  cases op <;> unfold Mutator.keepsOffsetInside <;> exact inferInstance

/-- Every call of the sequence keeps the offset inside, at the record it is
applied to. -/
def runsInside (s : Instruction) : List Mutator → Prop
  | [] => True
  | op :: ops => op.keepsOffsetInside s ∧ runsInside (op.apply s) ops

/-- Decision procedure for `runsInside`, call by call. -/
def runsInside.decide : (s : Instruction) → (ops : List Mutator) → Decidable (runsInside s ops)
  | _, [] => isTrue trivial
  | s, op :: ops =>
    have := runsInside.decide (op.apply s) ops
    inferInstanceAs (Decidable (op.keepsOffsetInside s ∧ runsInside (op.apply s) ops))

instance (s : Instruction) (ops : List Mutator) : Decidable (runsInside s ops) :=
  runsInside.decide s ops

/-! ## The diagnostic formatter -/

/-- The part of a `std::ostream` that the formatter reads and writes: the
characters written so far, whether `basefield` is `hex`, the fill character,
the pending field width and whether `adjustfield` is `left`.  The flags
`showbase` and `uppercase` are unset, as in a default stream. -/
structure OStream where
  out : List Char
  basefieldHex : Bool
  fillChar : Char
  width : Nat
  adjustLeft : Bool
deriving DecidableEq

namespace OStream

/-- A default-constructed `std::stringstream`. -/
def fresh : OStream := ⟨[], false, ' ', 0, false⟩

/-- Manipulator `std::hex`. -/
def hex (os : OStream) : OStream := { os with basefieldHex := true }

/-- Manipulator `std::dec`. -/
def dec (os : OStream) : OStream := { os with basefieldHex := false }

/-- Manipulator `std::left`. -/
def left (os : OStream) : OStream := { os with adjustLeft := true }

/-- Manipulator `std::setfill`. -/
def setfill (os : OStream) (c : Char) : OStream := { os with fillChar := c }

/-- Manipulator `std::setw`. -/
def setw (os : OStream) (n : Nat) : OStream := { os with width := n }

/-- Formatted output of one field: it is padded with the fill character up to
the pending width, after the field when `left` is set and before it otherwise,
and the width is reset to zero. -/
def putField (os : OStream) (field : List Char) : OStream :=
  { os with
    out := os.out ++
      (if os.adjustLeft then field ++ List.replicate (os.width - field.length) os.fillChar
       else List.replicate (os.width - field.length) os.fillChar ++ field)
    width := 0 }

/-- Output of a string (`const char*` or `std::string`). -/
def putStr (os : OStream) (str : String) : OStream := os.putField str.toList

/-- Output of an unsigned integer, in base 16 (lower case) when `basefield` is
`hex` and in base 10 otherwise. -/
def putUnsigned (os : OStream) (n : Nat) : OStream :=
  os.putField (if os.basefieldHex then Nat.toDigits 16 n else Nat.toDigits 10 n)

/-- The contents of a string stream (`str()`). -/
def str (os : OStream) : String := String.mk os.out

end OStream

/-- The loop of the formatter over the bytes: each byte goes to `byteStream`
as two hexadecimal digits followed by a blank. -/
def byteStream (bytes : List Nat) : OStream :=
  bytes.foldl (fun bs b => ((((bs.hex).setfill '0').setw 2).putUnsigned b).putStr " ")
    OStream.fresh

/-- The stream insertion `operator<<(std::ostream&, const Instruction&)`. -/
def streamOut (os : OStream) (obj : Instruction) : OStream :=
  let os1 := ((((os.hex).putUnsigned obj.getAddress).putStr " [").putUnsigned obj.size).putStr
    "]: "
  let os2 := ((((os1.setfill ' ').setw 30).left).putStr (byteStream obj.getBytes).str)
  let os3 := os2.putStr obj.getFullName
  let os4 :=
    if obj.hasDisplacement && obj.isDisplacementRelative then
      (os3.putStr " -> ").putUnsigned obj.getDestination
    else os3
  os4.dec

/-- A one-byte record without a displacement, as the constructor leaves it. -/
def nop3000 : Instruction := construct 5 0x3000 ⟨0⟩ 0 false [0x90] "nop" ""

/-! ## Relative displacement arithmetic -/

/-- C1: for every unsigned 64-bit `from_`, `to_` and unsigned 8-bit `insSize`,
`calculateRelativeDisplacement` is `to_ - from_ - insSize` as a signed 64-bit
wrap-around value, in either branch: it equals the representative of that
difference in `[-2^63, 2^63)`. -/
theorem calculateRelativeDisplacement_eq (from_ to_ insSize : Nat)
    (hf : from_ < 2 ^ 64) (ht : to_ < 2 ^ 64) (_hi : insSize < 2 ^ 8) :
    calculateRelativeDisplacement from_ to_ insSize
        = wrapInt64 ((to_ : Int) - (from_ : Int) - (insSize : Int)) ∧
    -(2 : Int) ^ 63 ≤ calculateRelativeDisplacement from_ to_ insSize ∧
    calculateRelativeDisplacement from_ to_ insSize < (2 : Int) ^ 63 ∧
    (calculateRelativeDisplacement from_ to_ insSize
        - ((to_ : Int) - (from_ : Int) - (insSize : Int))) % 2 ^ 64 = 0 := by
  unfold calculateRelativeDisplacement wrapInt64 toInt64 sub64 add64
  norm_num at hf ht ⊢
  split_ifs <;> omega

theorem calculateRelativeDisplacement_eq_witness :
    calculateRelativeDisplacement 0x2000 0x1015 5 = wrapInt64 ((0x1015 : Int) - 0x2000 - 5) ∧
    calculateRelativeDisplacement 0x2000 0x1015 5 = -0xFF0 := by
  refine ⟨?_, by decide⟩
  have h := calculateRelativeDisplacement_eq 0x2000 0x1015 5 (by norm_num) (by norm_num)
    (by norm_num)
  exact_mod_cast h.1

/-! ## Conversions -/

theorem toInt64_toUInt64 (v : Int) (hlo : -(2 : Int) ^ 63 ≤ v) (hhi : v < (2 : Int) ^ 63) :
    toInt64 (toUInt64 v) = v := by
  unfold toInt64 toUInt64
  norm_num at hlo hhi ⊢
  split_ifs <;> omega

theorem toUInt64_toInt64 (x : Nat) : toUInt64 (toInt64 x) = x % 2 ^ 64 := by
  unfold toInt64 toUInt64
  norm_num
  split_ifs <;> omega

theorem toUInt64_lt (v : Int) : toUInt64 v < 2 ^ 64 := by
  unfold toUInt64
  norm_num
  omega

theorem calculateRelativeDisplacement_range (a d k : Nat) :
    -(2 : Int) ^ 63 ≤ calculateRelativeDisplacement a d k ∧
    calculateRelativeDisplacement a d k < (2 : Int) ^ 63 := by
  unfold calculateRelativeDisplacement toInt64 sub64 add64
  norm_num
  split_ifs <;> omega

/-! ## The byte copy -/

@[simp] theorem memcpy_length (dst : List Nat) (off : Nat) (src : List Nat) (n : Nat) :
    (memcpy dst off src n).length = dst.length := by
  simp [memcpy]

@[simp] theorem size_setRelativeDisplacement (s : Instruction) (v : Int) :
    (s.setRelativeDisplacement v).size = s.size := by
  simp [setRelativeDisplacement, size]

@[simp] theorem size_setAbsoluteDisplacement (s : Instruction) (v : Nat) :
    (s.setAbsoluteDisplacement v).size = s.size := by
  simp [setAbsoluteDisplacement, size]

/-! ## Destination of a record -/

/-- The destination of a relative record, as one sum modulo `2^64`. -/
theorem getDestination_relative (s : Instruction) (h : s.m_isRelative = true) :
    s.getDestination = (s.m_address + s.m_displacement.bits + s.size) % 2 ^ 64 := by
  unfold getDestination isDisplacementRelative Displacement.Relative
  rw [if_pos h, toUInt64_toInt64]
  unfold add64
  omega

/-- Re-targeting a relative record is the relative setter at the computed
displacement, the size narrowed to 8 bits. -/
theorem setDestination_relative_eq (s : Instruction) (d : Nat)
    (hd : s.m_hasDisplacement = true) (hr : s.m_isRelative = true) :
    s.setDestination d
      = s.setRelativeDisplacement
          (calculateRelativeDisplacement s.m_address d (s.size % 2 ^ 8)) := by
  simp [setDestination, hasDisplacement, isDisplacementRelative, hd, hr, getAddress, toUInt8]

/-- Re-targeting a relative record: the destination afterwards, in terms of
the narrowed size. -/
theorem getDestination_setDestination_relative (s : Instruction) (d : Nat)
    (hd : s.m_hasDisplacement = true) (hr : s.m_isRelative = true) :
    (s.setDestination d).getDestination
      = (s.m_address + toUInt64 (calculateRelativeDisplacement s.m_address d (s.size % 2 ^ 8))
          + s.size) % 2 ^ 64 := by
  rw [setDestination_relative_eq s d hd hr,
    getDestination_relative _ (by simp [setRelativeDisplacement]),
    size_setRelativeDisplacement]
  simp [setRelativeDisplacement, Displacement.setRelative]

/-- Re-targeting a relative record of at most 255 bytes reaches the target. -/
theorem getDestination_setDestination_small (s : Instruction) (d : Nat)
    (hd : s.m_hasDisplacement = true) (hr : s.m_isRelative = true)
    (hdest : d < 2 ^ 64) (hs : s.size ≤ 255) :
    (s.setDestination d).getDestination = d := by
  rw [getDestination_setDestination_relative s d hd hr]
  have hk : s.size % 2 ^ 8 = s.size := Nat.mod_eq_of_lt (by omega)
  rw [hk]
  unfold calculateRelativeDisplacement toUInt64 toInt64 sub64 add64
  norm_num at hdest ⊢
  split_ifs <;> omega

/-- C2 (as stated, refuted): a well-formed relative record of 256 bytes at
`0x2000`, with a displacement, re-targeted at `0x1015` reports the destination
`0x1115`: the size is narrowed to 8 bits when the displacement is computed and
taken in full when the destination is read.  And on the relative records
`far200` (five bytes, offset 200) and `wide12` (eleven bytes from the offset
on) the call is undefined: its copy leaves the buffer, or reads past the
union. -/
theorem setDestination_getDestination_long256 :
    long256.WF ∧ long256.hasDisplacement = true ∧ long256.isDisplacementRelative = true ∧
    long256.getAddress = 0x2000 ∧ long256.size = 256 ∧
    (long256.setDestination 0x1015).getDestination = 0x1115 ∧
    (long256.setDestination 0x1015).getDestination ≠ 0x1015 ∧
    (Exec.setDestination long256 0x1015).map getDestination = some 0x1115 ∧
    (far200.WF ∧ far200.hasDisplacement = true ∧ far200.isDisplacementRelative = true ∧
      far200.size = 5 ∧ far200.getDisplacementOffset = 200 ∧
      Exec.setDestination far200 0x1015 = none) ∧
    (wide12.WF ∧ wide12.hasDisplacement = true ∧ wide12.isDisplacementRelative = true ∧
      wide12.size = 12 ∧ wide12.getDisplacementOffset = 1 ∧
      Exec.setDestination wide12 0x1015 = none) := by
  set_option maxRecDepth 100000 in decide

/-- C3: `getDestination` is a function of the record alone (a `const` member:
it returns a value and no field changes); for a relative record the value is
`address + displacement + size()` with the displacement read as signed 64-bit
and the sum taken modulo `2^64`, otherwise it is the displacement read as an
unsigned absolute address; a five-byte record at `0x1000` with relative
displacement `0x10` gives `0x1015`. -/
theorem getDestination_spec (s : Instruction) :
    s.getDestination
      = (if s.isDisplacementRelative = true then
          (((s.getAddress : Int) + s.getDisplacement.Relative + (s.size : Int)) % 2 ^ 64).toNat
        else s.getDisplacement.Absolute) ∧
    (∀ (off : Nat) (hasDisp : Bool) (b0 b1 b2 b3 b4 : Nat) (mnemonic opStr : String)
        (uid : Int),
      getDestination ⟨0x1000, Displacement.setRelative 0x10, off, true, hasDisp,
        [b0, b1, b2, b3, b4], mnemonic, opStr, uid⟩ = 0x1015) := by
  constructor
  · unfold getDestination getAddress getDisplacement
    split_ifs with h
    · unfold Displacement.Relative toUInt64 toInt64 add64
      norm_num
      split_ifs <;> omega
    · rfl
  · intros
    rfl

/-- The members of the record that `setRelativeDisplacement v` leaves. -/
theorem setRelativeDisplacement_members (s : Instruction) (v : Int)
    (hlo : -(2 : Int) ^ 63 ≤ v) (hhi : v < (2 : Int) ^ 63) :
    (s.setRelativeDisplacement v).getDisplacement.Relative = v ∧
    (s.setRelativeDisplacement v).isDisplacementRelative = true ∧
    (s.setRelativeDisplacement v).hasDisplacement = true := by
  refine ⟨?_, rfl, rfl⟩
  show toInt64 (toUInt64 v) = v
  exact toInt64_toUInt64 v hlo hhi

theorem sub64_of_lt (a b : Nat) (h : b < a) (hn : a - b ≤ 8) : sub64 a b = a - b := by
  unfold sub64
  norm_num
  omega

theorem memcpy_get (dst : List Nat) (off : Nat) (src : List Nat) (n j : Nat)
    (hj : j < dst.length) :
    (memcpy dst off src n)[j]? =
      some (if off ≤ j ∧ j - off < n then src.getD (j - off) (dst.getD j 0)
        else dst.getD j 0) := by
  simp [memcpy, List.getElem?_map, List.getElem?_range hj]

theorem objectBytes_getD (d : Displacement) (i x : Nat) (hi : i < 8) :
    d.objectBytes.getD i x = d.bits / 256 ^ i % 256 := by
  simp [Displacement.objectBytes, List.getD, List.getElem?_map, List.getElem?_range hi]

theorem memcpy_drop (dst : List Nat) (off : Nat) (src : List Nat)
    (hoff : off ≤ dst.length) (hsrc : dst.length - off ≤ src.length) :
    (memcpy dst off src (dst.length - off)).drop off = src.take (dst.length - off) := by
  apply List.ext_getElem?
  intro i
  rw [List.getElem?_drop, List.getElem?_take]
  by_cases hi : i < dst.length - off
  · rw [memcpy_get _ _ _ _ _ (by omega), if_pos hi]
    have h1 : off ≤ off + i ∧ off + i - off < dst.length - off := ⟨by omega, by omega⟩
    rw [if_pos h1]
    have h2 : off + i - off = i := by omega
    rw [h2]
    have h3 : i < src.length := by omega
    simp [List.getD, List.getElem?_eq_getElem h3]
  · rw [if_neg hi]
    apply List.getElem?_eq_none
    simp
    omega

theorem toUInt64_byte (v : Int) (i : Nat) (hi : i < 8) :
    toUInt64 v / 256 ^ i % 256 = (v / 2 ^ (8 * i) % 256).toNat := by
  unfold toUInt64
  interval_cases i <;> norm_num <;> omega

theorem setDisplacement_byte_aux (bytes : List Nat) (off i : Nat) (d : Displacement)
    (hoff : off < bytes.length) (hn : bytes.length - off ≤ 8) (hi : i < bytes.length - off) :
    (memcpy bytes off d.objectBytes (sub64 bytes.length off))[off + i]?
      = some (d.bits / 256 ^ i % 256) := by
  rw [sub64_of_lt _ _ hoff hn, memcpy_get _ _ _ _ _ (by omega)]
  have h1 : off ≤ off + i ∧ off + i - off < bytes.length - off := ⟨by omega, by omega⟩
  have h2 : off + i - off = i := by omega
  rw [if_pos h1, h2, objectBytes_getD _ _ _ (by omega)]

/-- C6: for a record with `displacementOffset < size()` and
`n = size() - displacementOffset <= 8`, after either displacement setter has
run with `v`, every byte `displacementOffset + i` with `i < n` is byte `i` of
the 64-bit little-endian representation of `v`, that is `(v >> 8*i) & 0xFF`
(shift as division by `2^(8*i)`, mask as remainder modulo 256). -/
theorem setDisplacement_bytes (s : Instruction) (i : Nat)
    (hoff : s.getDisplacementOffset < s.size)
    (hn : s.size - s.getDisplacementOffset ≤ 8)
    (hi : i < s.size - s.getDisplacementOffset) :
    (∀ v : Int,
      (s.setRelativeDisplacement v).getBytes[s.getDisplacementOffset + i]?
        = some (v / 2 ^ (8 * i) % 256).toNat) ∧
    (∀ v : Nat,
      (s.setAbsoluteDisplacement v).getBytes[s.getDisplacementOffset + i]?
        = some (v / 2 ^ (8 * i) % 256)) := by
  unfold getDisplacementOffset size at *
  constructor
  · intro v
    show (memcpy s.m_bytes s.m_dispOffset (Displacement.setRelative v).objectBytes
      (sub64 s.m_bytes.length s.m_dispOffset))[s.m_dispOffset + i]? = _
    rw [setDisplacement_byte_aux _ _ _ _ hoff hn hi]
    show some (toUInt64 v / 256 ^ i % 256) = _
    rw [toUInt64_byte v i (by omega)]
  · intro v
    show (memcpy s.m_bytes s.m_dispOffset (Displacement.setAbsolute v).objectBytes
      (sub64 s.m_bytes.length s.m_dispOffset))[s.m_dispOffset + i]? = _
    rw [setDisplacement_byte_aux _ _ _ _ hoff hn hi]
    show some (v / 256 ^ i % 256) = _
    have h : (256 : Nat) ^ i = 2 ^ (8 * i) := by rw [pow_mul]; norm_num
    rw [h]

theorem objectBytes_eq (d : Displacement) :
    d.objectBytes = [d.bits / 256 ^ 0 % 256, d.bits / 256 ^ 1 % 256, d.bits / 256 ^ 2 % 256,
      d.bits / 256 ^ 3 % 256, d.bits / 256 ^ 4 % 256, d.bits / 256 ^ 5 % 256,
      d.bits / 256 ^ 6 % 256, d.bits / 256 ^ 7 % 256] := rfl

theorem decodeLE_take (x : Nat) (n : Nat) (h8 : n ≤ 8) :
    decodeLE ([x / 256 ^ 0 % 256, x / 256 ^ 1 % 256, x / 256 ^ 2 % 256,
      x / 256 ^ 3 % 256, x / 256 ^ 4 % 256, x / 256 ^ 5 % 256,
      x / 256 ^ 6 % 256, x / 256 ^ 7 % 256].take n) = x % 256 ^ n := by
  interval_cases n <;> simp only [List.take, decodeLE] <;> norm_num <;> omega

theorem signExtend_low_bytes (v : Int) (n : Nat) (h1 : 1 ≤ n) (h8 : n ≤ 8)
    (hlo : -(2 : Int) ^ (8 * n - 1) ≤ v) (hhi : v < (2 : Int) ^ (8 * n - 1)) :
    (if 2 * ((v % 2 ^ 64).toNat % 256 ^ n) < 256 ^ n then
        (((v % 2 ^ 64).toNat % 256 ^ n : Nat) : Int)
      else (((v % 2 ^ 64).toNat % 256 ^ n : Nat) : Int) - (256 : Int) ^ n) = v := by
  interval_cases n <;> norm_num at hlo hhi ⊢ <;> split_ifs <;> omega

theorem decodeSignedLE_objectBytes (v : Int) (n : Nat) (h1 : 1 ≤ n) (h8 : n ≤ 8)
    (hlo : -(2 : Int) ^ (8 * n - 1) ≤ v) (hhi : v < (2 : Int) ^ (8 * n - 1)) :
    decodeSignedLE ((Displacement.setRelative v).objectBytes.take n) = v := by
  have hlen : ((Displacement.setRelative v).objectBytes.take n).length = n := by
    simp [Displacement.objectBytes, h8]
  unfold decodeSignedLE
  rw [hlen, objectBytes_eq, decodeLE_take _ _ h8]
  exact signExtend_low_bytes v n h1 h8 hlo hhi

/-- C5 (amended): for a record with `displacementOffset < size()` and
`n = size() - displacementOffset <= 8`, and for every `v` that fits in `n`
bytes (`-2^(8n-1) <= v < 2^(8n-1)`), decoding the trailing bytes after
`setRelativeDisplacement v` as a little-endian two's-complement integer gives
back `v`. -/
theorem decode_setRelativeDisplacement (s : Instruction) (v : Int)
    (hoff : s.getDisplacementOffset < s.size)
    (hn : s.size - s.getDisplacementOffset ≤ 8)
    (hlo : -(2 : Int) ^ (8 * (s.size - s.getDisplacementOffset) - 1) ≤ v)
    (hhi : v < (2 : Int) ^ (8 * (s.size - s.getDisplacementOffset) - 1)) :
    decodeSignedLE ((s.setRelativeDisplacement v).getBytes.drop s.getDisplacementOffset)
      = v := by
  unfold getDisplacementOffset size at *
  show decodeSignedLE ((memcpy s.m_bytes s.m_dispOffset (Displacement.setRelative v).objectBytes
      (sub64 s.m_bytes.length s.m_dispOffset)).drop s.m_dispOffset) = v
  rw [sub64_of_lt _ _ hoff hn, memcpy_drop _ _ _ (by omega) (by simpa [Displacement.objectBytes] using hn)]
  exact decodeSignedLE_objectBytes v _ (by omega) hn hlo hhi

theorem decode_setRelativeDisplacement_witness :
    decodeSignedLE (((construct 1 0x2000 ⟨0⟩ 1 true [0xE8, 0, 0, 0, 0] "call"
      "0x1015").setRelativeDisplacement (-0xFF0)).getBytes.drop 1) = -0xFF0 :=
  decode_setRelativeDisplacement
    (construct 1 0x2000 ⟨0⟩ 1 true [0xE8, 0, 0, 0, 0] "call" "0x1015") (-0xFF0)
    (by decide) (by decide) (by decide) (by decide)

/-- C5 (as stated, refuted): the five-byte record `call1000` keeps four
displacement bytes; after `setRelativeDisplacement 0x100000000` (a signed
64-bit value) they are all zero and decode to `0`, not to the value set. -/
theorem decode_setRelativeDisplacement_truncates :
    call1000.getDisplacementOffset < call1000.size ∧
    call1000.size - call1000.getDisplacementOffset ≤ 8 ∧
    (call1000.setRelativeDisplacement 0x100000000).getDisplacement.Relative = 0x100000000 ∧
    (call1000.setRelativeDisplacement 0x100000000).getBytes = [0xE8, 0, 0, 0, 0] ∧
    decodeSignedLE ((call1000.setRelativeDisplacement 0x100000000).getBytes.drop
      call1000.getDisplacementOffset) = 0 ∧
    decodeSignedLE ((call1000.setRelativeDisplacement 0x100000000).getBytes.drop
      call1000.getDisplacementOffset) ≠ 0x100000000 := by
  decide

theorem setDisplacement_bytes_witness :
    (call1000.setRelativeDisplacement (-0xFF0)).getBytes[1 + 1]? = some 0xF0 ∧
    (call1000.setAbsoluteDisplacement 0x11223344).getBytes[1 + 1]? = some 0x33 := by
  have h := setDisplacement_bytes call1000 1 (by decide) (by decide) (by decide)
  exact ⟨by simpa using h.1 (-0xFF0), by simpa using h.2 0x11223344⟩

/-! ## Re-targeting -/

/-- The record that `setDestination d` leaves from an absolute record with a
displacement. -/
theorem setDestination_absolute_members (s : Instruction) (d : Nat)
    (hd : s.hasDisplacement = true) (hr : s.isDisplacementRelative = false) :
    (s.setDestination d).getDisplacement.Absolute = d ∧
    (s.setDestination d).isDisplacementRelative = false ∧
    (s.setDestination d).hasDisplacement = true ∧
    (s.setDestination d).getDestination = d := by
  have hs : s.setDestination d = s.setAbsoluteDisplacement d := by
    simp [setDestination, hd, hr]
  rw [hs]
  exact ⟨rfl, rfl, rfl, rfl⟩

/-- C8: on a record without a displacement `setDestination d` returns the
record unchanged, every field included. -/
theorem setDestination_noDisplacement (s : Instruction) (d : Nat)
    (hd : s.hasDisplacement = false) : s.setDestination d = s := by
  simp [setDestination, hd]

theorem setDestination_noDisplacement_witness :
    (construct 4 0x1000 ⟨0x10⟩ 1 true [0xE8, 0x10, 0, 0, 0] "call" "0x1015").setDestination
        0x3000
      = construct 4 0x1000 ⟨0x10⟩ 1 true [0xE8, 0x10, 0, 0, 0] "call" "0x1015" :=
  setDestination_noDisplacement _ 0x3000 (by decide)

/-- C9 (as stated, refuted): `call1000` is at `0x1000`, has 5 bytes, offset 1
and relative displacement `0x10`, and targets `0x1015`; moved to `0x2000` and
re-targeted at `0x1015` its relative displacement is `-0xFF0`, not `-0xFEA`. -/
theorem relocate_call1000_not_FEA :
    call1000.getAddress = 0x1000 ∧ call1000.size = 5 ∧
    call1000.getDisplacementOffset = 1 ∧ call1000.hasDisplacement = true ∧
    call1000.getDisplacement.Relative = 0x10 ∧ call1000.getDestination = 0x1015 ∧
    ((call1000.setAddress 0x2000).setDestination 0x1015).getDisplacement.Relative = -0xFF0 ∧
    ((call1000.setAddress 0x2000).setDestination 0x1015).getDisplacement.Relative
      ≠ -0xFEA := by
  decide

/-- C9 (amended): a record at `0x1000` with 5 bytes and displacement offset 1,
given the relative displacement `0x10`, has a displacement and targets
`0x1015`; after `setAddress 0x2000` and `setDestination 0x1015` its relative
displacement is `0x1015 - 0x2000 - 5 = -0xFF0`, its last four bytes encode
that value and `getDestination` reports `0x1015` again. -/
theorem relocate_call (s : Instruction) (ha : s.getAddress = 0x1000) (hs : s.size = 5)
    (ho : s.getDisplacementOffset = 1) :
    (s.setRelativeDisplacement 0x10).hasDisplacement = true ∧
    (s.setRelativeDisplacement 0x10).getDestination = 0x1015 ∧
    (((s.setRelativeDisplacement 0x10).setAddress 0x2000).setDestination
      0x1015).getDisplacement.Relative = 0x1015 - 0x2000 - 5 ∧
    (((s.setRelativeDisplacement 0x10).setAddress 0x2000).setDestination
      0x1015).getDisplacement.Relative = -0xFF0 ∧
    (((s.setRelativeDisplacement 0x10).setAddress 0x2000).setDestination
      0x1015).getBytes.drop 1 = [0x10, 0xF0, 0xFF, 0xFF] ∧
    (((s.setRelativeDisplacement 0x10).setAddress 0x2000).setDestination
      0x1015).getDestination = 0x1015 := by
  unfold getAddress getDisplacementOffset at *
  have hc : calculateRelativeDisplacement 0x2000 0x1015 (5 % 2 ^ 8) = -0xFF0 := by decide
  have hs2 : ((s.setRelativeDisplacement 0x10).setAddress 0x2000).setDestination 0x1015
      = ((s.setRelativeDisplacement 0x10).setAddress 0x2000).setRelativeDisplacement
          (-0xFF0) := by
    rw [setDestination_relative_eq _ _ rfl rfl]
    have hsz : ((s.setRelativeDisplacement 0x10).setAddress 0x2000).size = 5 := by
      rw [← hs]; exact size_setRelativeDisplacement s 0x10
    rw [hsz]
    exact congrArg _ hc
  have hlen : (s.setRelativeDisplacement 0x10).m_bytes.length = 5 := by
    rw [← hs]; exact size_setRelativeDisplacement s 0x10
  refine ⟨rfl, ?_, ?_, ?_, ?_, ?_⟩
  · rw [getDestination_relative _ rfl, size_setRelativeDisplacement, hs]
    show (s.m_address + toUInt64 0x10 + 5) % 2 ^ 64 = 0x1015
    rw [ha]
    decide
  · rw [hs2]
    show toInt64 (toUInt64 (-0xFF0)) = 0x1015 - 0x2000 - 5
    decide
  · rw [hs2]
    show toInt64 (toUInt64 (-0xFF0)) = -0xFF0
    decide
  · rw [hs2]
    show (memcpy (s.setRelativeDisplacement 0x10).m_bytes s.m_dispOffset
      (Displacement.setRelative (-0xFF0)).objectBytes
      (sub64 (s.setRelativeDisplacement 0x10).m_bytes.length s.m_dispOffset)).drop 1 = _
    rw [ho, sub64_of_lt _ _ (by omega) (by omega),
      memcpy_drop _ _ _ (by omega) (by rw [hlen]; decide), hlen]
    decide
  · rw [hs2, getDestination_relative _ rfl, size_setRelativeDisplacement]
    show (0x2000 + toUInt64 (-0xFF0) + (s.setRelativeDisplacement 0x10).m_bytes.length)
      % 2 ^ 64 = 0x1015
    rw [hlen]
    decide

theorem relocate_call_witness :
    ((((construct 1 0x1000 ⟨0⟩ 1 true [0xE8, 0, 0, 0, 0] "call"
      "0x1015").setRelativeDisplacement 0x10).setAddress 0x2000).setDestination
      0x1015).getDisplacement.Relative = -0xFF0 :=
  (relocate_call (construct 1 0x1000 ⟨0⟩ 1 true [0xE8, 0, 0, 0, 0] "call" "0x1015")
    (by decide) (by decide) (by decide)).2.2.2.1

/-- Copying the same source to the same place a second time changes nothing. -/
theorem memcpy_memcpy (dst : List Nat) (off : Nat) (src : List Nat) (n : Nat) :
    memcpy (memcpy dst off src n) off src n = memcpy dst off src n := by
  apply List.ext_getElem?
  intro j
  by_cases hj : j < dst.length
  · have hget : (memcpy dst off src n).getD j 0
        = (if off ≤ j ∧ j - off < n then src.getD (j - off) (dst.getD j 0)
            else dst.getD j 0) := by
      rw [List.getD_eq_getElem?_getD, memcpy_get _ _ _ _ _ hj]
      rfl
    rw [memcpy_get _ _ _ _ _ (by simpa using hj), memcpy_get _ _ _ _ _ hj, hget]
    by_cases hc : off ≤ j ∧ j - off < n
    · simp only [if_pos hc]
      by_cases hk : j - off < src.length
      · simp [List.getD, List.getElem?_eq_getElem hk]
      · have hnone : src[j - off]? = none := List.getElem?_eq_none (by omega)
        simp [List.getD, hnone]
    · rw [if_neg hc]
  · rw [List.getElem?_eq_none (by simpa using hj), List.getElem?_eq_none (by simpa using hj)]

theorem setRelativeDisplacement_twice (s : Instruction) (v : Int) :
    (s.setRelativeDisplacement v).setRelativeDisplacement v = s.setRelativeDisplacement v := by
  simp [setRelativeDisplacement, getDisplacementOffset, size, memcpy_memcpy]

theorem setAbsoluteDisplacement_twice (s : Instruction) (v : Nat) :
    (s.setAbsoluteDisplacement v).setAbsoluteDisplacement v = s.setAbsoluteDisplacement v := by
  simp [setAbsoluteDisplacement, getDisplacementOffset, size, memcpy_memcpy]

/-- The record that `setDestination d` leaves is left as it is by a second
`setDestination d`. -/
theorem setDestination_twice (s : Instruction) (d : Nat) :
    (s.setDestination d).setDestination d = s.setDestination d := by
  by_cases hd : s.m_hasDisplacement = true
  · by_cases hr : s.m_isRelative = true
    · rw [setDestination_relative_eq s d hd hr, setDestination_relative_eq _ d rfl rfl,
        size_setRelativeDisplacement]
      exact setRelativeDisplacement_twice s _
    · have h1 : s.setDestination d = s.setAbsoluteDisplacement d := by
        simp [setDestination, hasDisplacement, isDisplacementRelative, hd, hr]
      have h2 : (s.setAbsoluteDisplacement d).setDestination d
          = (s.setAbsoluteDisplacement d).setAbsoluteDisplacement d := by
        simp [setDestination, hasDisplacement, isDisplacementRelative, setAbsoluteDisplacement]
      rw [h1, h2]
      exact setAbsoluteDisplacement_twice s d
  · have h1 : s.setDestination d = s := by
      simp [setDestination, hasDisplacement, hd]
    rw [h1, h1]

/-! ## Frame properties -/

/-- C11: `setAddress a` makes `getAddress` return `a` and changes nothing
else: displacement (not recomputed), displacement offset, both flags, bytes,
mnemonic, operand text and identity are as before. -/
theorem setAddress_frame (s : Instruction) (a : Nat) :
    (s.setAddress a).getAddress = a ∧
    (s.setAddress a).getDisplacement = s.getDisplacement ∧
    (s.setAddress a).getDisplacementOffset = s.getDisplacementOffset ∧
    (s.setAddress a).isDisplacementRelative = s.isDisplacementRelative ∧
    (s.setAddress a).hasDisplacement = s.hasDisplacement ∧
    (s.setAddress a).getBytes = s.getBytes ∧
    (s.setAddress a).getMnemonic = s.getMnemonic ∧
    (s.setAddress a).m_opStr = s.m_opStr ∧
    (s.setAddress a).getUID = s.getUID ∧
    s.setAddress a = { s with m_address := a } :=
  ⟨rfl, rfl, rfl, rfl, rfl, rfl, rfl, rfl, rfl, rfl⟩

/-- The copy leaves the bytes below the offset as they were. -/
theorem memcpy_take (dst : List Nat) (off : Nat) (src : List Nat) (n : Nat) :
    (memcpy dst off src n).take off = dst.take off := by
  apply List.ext_getElem?
  intro j
  rw [List.getElem?_take, List.getElem?_take]
  by_cases hj : j < off
  · rw [if_pos hj, if_pos hj]
    by_cases hl : j < dst.length
    · rw [memcpy_get _ _ _ _ _ hl, if_neg (by omega)]
      simp [List.getD, List.getElem?_eq_getElem hl]
    · rw [List.getElem?_eq_none (by simpa using hl), List.getElem?_eq_none (by simpa using hl)]
  · rw [if_neg hj, if_neg hj]

/-- C12: for a record with `displacementOffset < size()` and
`size() - displacementOffset <= 8`, each displacement setter only re-packs
bytes from the displacement offset on: the byte count, every byte below the
offset, the address, the offset, the mnemonic, the operand text and the
identity are unchanged. -/
theorem setDisplacement_frame (s : Instruction)
    (_hoff : s.getDisplacementOffset < s.size)
    (_hn : s.size - s.getDisplacementOffset ≤ 8) :
    (∀ v : Int,
      (s.setRelativeDisplacement v).size = s.size ∧
      (s.setRelativeDisplacement v).getBytes.take s.getDisplacementOffset
        = s.getBytes.take s.getDisplacementOffset ∧
      (∀ j, j < s.getDisplacementOffset →
        (s.setRelativeDisplacement v).getBytes[j]? = s.getBytes[j]?) ∧
      (s.setRelativeDisplacement v).getAddress = s.getAddress ∧
      (s.setRelativeDisplacement v).getDisplacementOffset = s.getDisplacementOffset ∧
      (s.setRelativeDisplacement v).getMnemonic = s.getMnemonic ∧
      (s.setRelativeDisplacement v).m_opStr = s.m_opStr ∧
      (s.setRelativeDisplacement v).getUID = s.getUID) ∧
    (∀ v : Nat,
      (s.setAbsoluteDisplacement v).size = s.size ∧
      (s.setAbsoluteDisplacement v).getBytes.take s.getDisplacementOffset
        = s.getBytes.take s.getDisplacementOffset ∧
      (∀ j, j < s.getDisplacementOffset →
        (s.setAbsoluteDisplacement v).getBytes[j]? = s.getBytes[j]?) ∧
      (s.setAbsoluteDisplacement v).getAddress = s.getAddress ∧
      (s.setAbsoluteDisplacement v).getDisplacementOffset = s.getDisplacementOffset ∧
      (s.setAbsoluteDisplacement v).getMnemonic = s.getMnemonic ∧
      (s.setAbsoluteDisplacement v).m_opStr = s.m_opStr ∧
      (s.setAbsoluteDisplacement v).getUID = s.getUID) := by
  have hbelow : ∀ (src : List Nat) (n j : Nat), j < s.m_dispOffset →
      (memcpy s.m_bytes s.m_dispOffset src n)[j]? = s.m_bytes[j]? := by
    intro src n j hj
    have h := congrArg (fun l => l[j]?) (memcpy_take s.m_bytes s.m_dispOffset src n)
    simpa [List.getElem?_take, hj] using h
  constructor
  · intro v
    exact ⟨size_setRelativeDisplacement s v, memcpy_take _ _ _ _,
      fun j hj => hbelow _ _ j hj, rfl, rfl, rfl, rfl, rfl⟩
  · intro v
    exact ⟨size_setAbsoluteDisplacement s v, memcpy_take _ _ _ _,
      fun j hj => hbelow _ _ j hj, rfl, rfl, rfl, rfl, rfl⟩

theorem setDisplacement_frame_witness :
    (call1000.setRelativeDisplacement (-0xFF0)).size = 5 ∧
    (call1000.setRelativeDisplacement (-0xFF0)).getBytes.take 1 = [0xE8] ∧
    (call1000.setAbsoluteDisplacement 0x7000).getBytes.take 1 = [0xE8] ∧
    (call1000.setAbsoluteDisplacement 0x7000).getUID = 1 := by
  have h := setDisplacement_frame call1000 (by decide) (by decide)
  exact ⟨(h.1 (-0xFF0)).1, (h.1 (-0xFF0)).2.1, (h.2 0x7000).2.1, (h.2 0x7000).2.2.2.2.2.2.2⟩

/-! ## Identity and equality -/

/-- C13: let `issue k` be the value the identity source hands out at its
`k`-th request, and let the source never issue a value twice.  Two records
constructed at different requests `i` and `j` from identical address,
displacement, offset, flag, bytes, mnemonic and operand text compare unequal
under `operator==`, with either constructor; and `operator==` holds between
two records exactly when their `getUID` values are equal. -/
theorem construct_independent_ne (issue : Nat → Int) (hinj : Function.Injective issue)
    (i j : Nat) (hij : i ≠ j) (address : Nat) (displacement : Displacement)
    (displacementOffset : Nat) (isRelative : Bool) (bytes : List Nat) (arrLen : Nat)
    (mnemonic opStr : String) :
    Instruction.eq
      (construct (issue i) address displacement displacementOffset isRelative bytes
        mnemonic opStr)
      (construct (issue j) address displacement displacementOffset isRelative bytes
        mnemonic opStr) = false ∧
    Instruction.eq
      (constructArr (issue i) address displacement displacementOffset isRelative bytes arrLen
        mnemonic opStr)
      (constructArr (issue j) address displacement displacementOffset isRelative bytes arrLen
        mnemonic opStr) = false ∧
    (∀ x y : Instruction, Instruction.eq x y = true ↔ x.getUID = y.getUID) := by
  have hne : issue i ≠ issue j := fun h => hij (hinj h)
  refine ⟨?_, ?_, ?_⟩
  · simpa [Instruction.eq, getUID, construct, Init] using hne
  · simpa [Instruction.eq, getUID, constructArr, construct, Init] using hne
  · intro x y
    simp [Instruction.eq]

theorem construct_independent_ne_witness :
    Instruction.eq
      (construct ((0 : Nat) : Int) 0x1000 ⟨0x10⟩ 1 true [0xE8, 0x10, 0, 0, 0] "call" "0x1015")
      (construct ((1 : Nat) : Int) 0x1000 ⟨0x10⟩ 1 true [0xE8, 0x10, 0, 0, 0] "call" "0x1015")
      = false :=
  (construct_independent_ne (fun k => (k : Int)) (fun _ _ h => Int.ofNat.inj h) 0 1
    (by decide) 0x1000 ⟨0x10⟩ 1 true [0xE8, 0x10, 0, 0, 0] 5 "call" "0x1015").1

/-- C14: the assignment `a = b` keeps the identity of `a`: `getUID` of `a` is
the same before and after, for every `a` and `b`, so `a == b` afterwards has
the truth value it had before, although the address, displacement, offset,
relative flag, bytes, mnemonic and operand text of `a` are now those of `b`. -/
theorem assign_keeps_identity (a b : Instruction) :
    (a.assign b).getUID = a.getUID ∧
    Instruction.eq (a.assign b) b = Instruction.eq a b ∧
    (a.assign b).getAddress = b.getAddress ∧
    (a.assign b).getDisplacement = b.getDisplacement ∧
    (a.assign b).getDisplacementOffset = b.getDisplacementOffset ∧
    (a.assign b).isDisplacementRelative = b.isDisplacementRelative ∧
    (a.assign b).getBytes = b.getBytes ∧
    (a.assign b).getMnemonic = b.getMnemonic ∧
    (a.assign b).m_opStr = b.m_opStr :=
  ⟨rfl, rfl, rfl, rfl, rfl, rfl, rfl, rfl, rfl⟩

/-! ## The displacement flag -/

/-- C15 (as stated, refuted): `call1000` has a displacement; after the
assignment from `nop3000`, and also after the assignment from `call1000`
itself (a record that has a displacement), `hasDisplacement` is false.  And on
`far200` and `wide12`, which have a displacement, the calls of
`setDestination` and of the two displacement setters are undefined (the copy
leaves the buffer, or reads past the union), so there is no record after them
on which the flag could be true. -/
theorem assign_clears_hasDisplacement :
    call1000.hasDisplacement = true ∧
    (call1000.assign nop3000).hasDisplacement = false ∧
    (call1000.assign call1000).hasDisplacement = false ∧
    far200.hasDisplacement = true ∧
    Exec.setDestination far200 0x3000 = none ∧
    Exec.setRelativeDisplacement far200 5 = none ∧
    Exec.setAbsoluteDisplacement far200 5 = none ∧
    wide12.hasDisplacement = true ∧
    Exec.setDestination wide12 0x3000 = none ∧
    Exec.setRelativeDisplacement wide12 5 = none ∧
    Exec.setAbsoluteDisplacement wide12 5 = none := by
  decide

/-- The flag of the record that each of the five setters leaves, from a record
with a displacement. -/
theorem hasDisplacement_members (s : Instruction) (h : s.hasDisplacement = true) :
    (∀ a, (s.setAddress a).hasDisplacement = true) ∧
    (∀ o, (s.setDisplacementOffset o).hasDisplacement = true) ∧
    (∀ d, (s.setDestination d).hasDisplacement = true) ∧
    (∀ v, (s.setRelativeDisplacement v).hasDisplacement = true) ∧
    (∀ v, (s.setAbsoluteDisplacement v).hasDisplacement = true) := by
  refine ⟨fun _ => h, fun _ => h, ?_, fun _ => rfl, fun _ => rfl⟩
  intro d
  unfold hasDisplacement at h
  by_cases hr : s.m_isRelative = true
  · rw [setDestination_relative_eq s d h hr]
    rfl
  · have h1 : s.setDestination d = s.setAbsoluteDisplacement d := by
      simp [setDestination, hasDisplacement, isDisplacementRelative, h, hr]
    rw [h1]
    rfl

/-! ## The offset bound along sequences of calls -/

/-- One call that keeps the offset inside preserves the offset bound. -/
theorem apply_offset_inside (s : Instruction) (op : Mutator)
    (hI : s.hasDisplacement = true → s.getDisplacementOffset < s.size)
    (hop : op.keepsOffsetInside s) :
    (op.apply s).hasDisplacement = true →
      (op.apply s).getDisplacementOffset < (op.apply s).size := by
  cases op with
  | setAddress a => exact hI
  | setDisplacementOffset o => exact hop
  | setDestination d =>
    unfold hasDisplacement getDisplacementOffset at hI
    by_cases hd : s.m_hasDisplacement = true
    · intro _
      by_cases hr : s.m_isRelative = true
      · show (s.setDestination d).getDisplacementOffset < (s.setDestination d).size
        rw [setDestination_relative_eq s d hd hr, size_setRelativeDisplacement]
        exact hI hd
      · have h1 : s.setDestination d = s.setAbsoluteDisplacement d := by
          simp [setDestination, hasDisplacement, isDisplacementRelative, hd, hr]
        show (s.setDestination d).getDisplacementOffset < (s.setDestination d).size
        rw [h1, size_setAbsoluteDisplacement]
        exact hI hd
    · have h1 : s.setDestination d = s := by
        simp [setDestination, hasDisplacement, hd]
      show (s.setDestination d).hasDisplacement = true →
        (s.setDestination d).getDisplacementOffset < (s.setDestination d).size
      rw [h1]
      exact hI
  | setRelativeDisplacement v =>
    intro _
    show (s.setRelativeDisplacement v).getDisplacementOffset < (s.setRelativeDisplacement v).size
    rw [size_setRelativeDisplacement]
    exact hop
  | setAbsoluteDisplacement v =>
    intro _
    show (s.setAbsoluteDisplacement v).getDisplacementOffset < (s.setAbsoluteDisplacement v).size
    rw [size_setAbsoluteDisplacement]
    exact hop
  | assign rhs =>
    intro h
    exact absurd h (by simp [Mutator.apply, assign, Init, hasDisplacement])

/-- A sequence of calls that keep the offset inside preserves the offset
bound. -/
theorem run_offset_inside (ops : List Mutator) :
    ∀ s : Instruction,
      (s.hasDisplacement = true → s.getDisplacementOffset < s.size) →
      runsInside s ops →
      ((run s ops).hasDisplacement = true →
        (run s ops).getDisplacementOffset < (run s ops).size) := by
  induction ops with
  | nil => intro s hI _; exact hI
  | cons op ops ih =>
    intro s hI hr
    exact ih (op.apply s) (apply_offset_inside s op hI hr.1) hr.2

/-- C16 (as stated, refuted): a five-byte record is constructed with offset 1
and given a relative displacement, then `setDisplacementOffset 200` is called:
the record has a displacement and its offset, 200, is not below its size, 5. -/
theorem reachable_offset_outside :
    (run (construct 1 0x1000 ⟨0⟩ 1 true [0xE8, 0, 0, 0, 0] "call" "0x1015")
      [.setRelativeDisplacement 0x10, .setDisplacementOffset 200]).hasDisplacement = true ∧
    (run (construct 1 0x1000 ⟨0⟩ 1 true [0xE8, 0, 0, 0, 0] "call" "0x1015")
      [.setRelativeDisplacement 0x10, .setDisplacementOffset 200]).getDisplacementOffset
        = 200 ∧
    (run (construct 1 0x1000 ⟨0⟩ 1 true [0xE8, 0, 0, 0, 0] "call" "0x1015")
      [.setRelativeDisplacement 0x10, .setDisplacementOffset 200]).size = 5 ∧
    ¬ ((run (construct 1 0x1000 ⟨0⟩ 1 true [0xE8, 0, 0, 0, 0] "call" "0x1015")
      [.setRelativeDisplacement 0x10, .setDisplacementOffset 200]).getDisplacementOffset
        < (run (construct 1 0x1000 ⟨0⟩ 1 true [0xE8, 0, 0, 0, 0] "call" "0x1015")
      [.setRelativeDisplacement 0x10, .setDisplacementOffset 200]).size) := by
  decide

/-- C16 (amended): in every state reached by constructing a record with
arbitrary arguments (either constructor) and then applying any sequence of the
public mutators, `size()` is the length of the byte buffer; and if along the
sequence the displacement setters are called only while
`displacementOffset < size()` and `setDisplacementOffset` is called on a
record that has a displacement only with an offset below `size()`, then
`displacementOffset < size()` whenever `hasDisplacement()` is true. -/
theorem reachable_offset_inside (uid : Int) (address : Nat) (displacement : Displacement)
    (displacementOffset : Nat) (isRelative : Bool) (bytes : List Nat) (arrLen : Nat)
    (mnemonic opStr : String) (ops : List Mutator) :
    (run (construct uid address displacement displacementOffset isRelative bytes
        mnemonic opStr) ops).size
      = (run (construct uid address displacement displacementOffset isRelative bytes
        mnemonic opStr) ops).getBytes.length ∧
    (run (constructArr uid address displacement displacementOffset isRelative bytes arrLen
        mnemonic opStr) ops).size
      = (run (constructArr uid address displacement displacementOffset isRelative bytes arrLen
        mnemonic opStr) ops).getBytes.length ∧
    (runsInside (construct uid address displacement displacementOffset isRelative bytes
        mnemonic opStr) ops →
      (run (construct uid address displacement displacementOffset isRelative bytes
        mnemonic opStr) ops).hasDisplacement = true →
      (run (construct uid address displacement displacementOffset isRelative bytes
        mnemonic opStr) ops).getDisplacementOffset
        < (run (construct uid address displacement displacementOffset isRelative bytes
        mnemonic opStr) ops).size) ∧
    (runsInside (constructArr uid address displacement displacementOffset isRelative bytes
        arrLen mnemonic opStr) ops →
      (run (constructArr uid address displacement displacementOffset isRelative bytes arrLen
        mnemonic opStr) ops).hasDisplacement = true →
      (run (constructArr uid address displacement displacementOffset isRelative bytes arrLen
        mnemonic opStr) ops).getDisplacementOffset
        < (run (constructArr uid address displacement displacementOffset isRelative bytes
        arrLen mnemonic opStr) ops).size) := by
  refine ⟨rfl, rfl, ?_, ?_⟩
  · exact run_offset_inside ops _ (fun h => absurd h (by simp [construct, Init, hasDisplacement]))
  · exact run_offset_inside ops _
      (fun h => absurd h (by simp [constructArr, construct, Init, hasDisplacement]))

theorem reachable_offset_inside_witness :
    (run (construct 1 0x1000 ⟨0⟩ 1 true [0xE8, 0, 0, 0, 0] "call" "0x1015")
      [.setRelativeDisplacement 0x10, .setAddress 0x2000, .setDestination 0x1015,
        .setDisplacementOffset 2]).getDisplacementOffset
      < (run (construct 1 0x1000 ⟨0⟩ 1 true [0xE8, 0, 0, 0, 0] "call" "0x1015")
      [.setRelativeDisplacement 0x10, .setAddress 0x2000, .setDestination 0x1015,
        .setDisplacementOffset 2]).size :=
  (reachable_offset_inside 1 0x1000 ⟨0⟩ 1 true [0xE8, 0, 0, 0, 0] 5 "call" "0x1015"
    [.setRelativeDisplacement 0x10, .setAddress 0x2000, .setDestination 0x1015,
      .setDisplacementOffset 2]).2.2.1 (by decide) (by decide)

/-! ## Representable displacements -/

/-- C18: when the integer `to - from - insSize` lies in `[-2^63, 2^63)`,
`calculateRelativeDisplacement` returns exactly that integer, and so does each
of its two branch expressions, which therefore agree. -/
theorem calculateRelativeDisplacement_exact (from_ to_ insSize : Nat)
    (hf : from_ < 2 ^ 64) (ht : to_ < 2 ^ 64) (hi : insSize < 2 ^ 8)
    (hlo : -(2 : Int) ^ 63 ≤ (to_ : Int) - (from_ : Int) - (insSize : Int))
    (hhi : (to_ : Int) - (from_ : Int) - (insSize : Int) < (2 : Int) ^ 63) :
    calculateRelativeDisplacement from_ to_ insSize
      = (to_ : Int) - (from_ : Int) - (insSize : Int) ∧
    toInt64 (sub64 (sub64 0 (sub64 from_ to_)) insSize)
      = (to_ : Int) - (from_ : Int) - (insSize : Int) ∧
    toInt64 (sub64 to_ (add64 from_ insSize))
      = (to_ : Int) - (from_ : Int) - (insSize : Int) ∧
    toInt64 (sub64 (sub64 0 (sub64 from_ to_)) insSize)
      = toInt64 (sub64 to_ (add64 from_ insSize)) := by
  unfold calculateRelativeDisplacement toInt64 sub64 add64
  norm_num at hf ht hi hlo hhi ⊢
  refine ⟨?_, ?_, ?_, ?_⟩ <;> split_ifs <;> omega

theorem calculateRelativeDisplacement_exact_witness :
    calculateRelativeDisplacement 0x2000 0x1015 5 = ((0x1015 : Nat) : Int) - (0x2000 : Nat)
      - (5 : Nat) :=
  (calculateRelativeDisplacement_exact 0x2000 0x1015 5 (by norm_num) (by norm_num)
    (by norm_num) (by norm_num) (by norm_num)).1

/-! ## A fresh record has no displacement -/

/-- C19: right after construction by either constructor, whatever the
arguments (a true relative flag and a non-zero displacement included), and
right after assignment from any record (one that has a displacement
included), `hasDisplacement` is false, and a following `setDestination d`
returns the record unchanged. -/
theorem fresh_hasDisplacement_false (uid : Int) (address : Nat) (displacement : Displacement)
    (displacementOffset : Nat) (isRelative : Bool) (bytes : List Nat) (arrLen : Nat)
    (mnemonic opStr : String) (a b : Instruction) (d : Nat) :
    (construct uid address displacement displacementOffset isRelative bytes mnemonic
      opStr).hasDisplacement = false ∧
    (constructArr uid address displacement displacementOffset isRelative bytes arrLen mnemonic
      opStr).hasDisplacement = false ∧
    (a.assign b).hasDisplacement = false ∧
    (construct uid address displacement displacementOffset isRelative bytes mnemonic
      opStr).setDestination d
      = construct uid address displacement displacementOffset isRelative bytes mnemonic opStr ∧
    (constructArr uid address displacement displacementOffset isRelative bytes arrLen mnemonic
      opStr).setDestination d
      = constructArr uid address displacement displacementOffset isRelative bytes arrLen
          mnemonic opStr ∧
    (a.assign b).setDestination d = a.assign b ∧
    (call1000.hasDisplacement = true ∧ (a.assign call1000).hasDisplacement = false ∧
      (a.assign call1000).setDestination d = a.assign call1000) :=
  ⟨rfl, rfl, rfl, rfl, rfl, rfl, by decide, rfl, rfl⟩

/-! ## Re-targeting at the current destination -/

/-- The displacement that reaches the current destination of a relative record
is its current displacement. -/
theorem calculateRelativeDisplacement_getDestination (a bits sz : Nat) :
    calculateRelativeDisplacement a ((a + bits + sz) % 2 ^ 64) sz = toInt64 bits := by
  unfold calculateRelativeDisplacement toInt64 sub64 add64
  norm_num
  split_ifs <;> omega

/-- The record that `setDestination (getDestination)` leaves, from a
well-formed record with a displacement and at most 255 bytes. -/
theorem setDestination_getDestination_members (s : Instruction) (hwf : s.WF)
    (hd : s.hasDisplacement = true) (hs : s.size ≤ 255) :
    (s.setDestination s.getDestination).getDisplacement = s.getDisplacement ∧
    (s.setDestination s.getDestination).isDisplacementRelative = s.isDisplacementRelative ∧
    (s.setDestination s.getDestination).getDestination = s.getDestination ∧
    (s.isDisplacementRelative = true →
      calculateRelativeDisplacement s.getAddress s.getDestination s.size
        = s.getDisplacement.Relative) := by
  unfold hasDisplacement at hd
  have hbits : s.m_displacement.bits % 2 ^ 64 = s.m_displacement.bits :=
    Nat.mod_eq_of_lt hwf.2.1
  by_cases hr : s.m_isRelative = true
  · have hk : s.size % 2 ^ 8 = s.size := Nat.mod_eq_of_lt (by omega)
    have hc : calculateRelativeDisplacement s.m_address s.getDestination s.size
        = toInt64 s.m_displacement.bits := by
      rw [getDestination_relative s hr]
      exact calculateRelativeDisplacement_getDestination _ _ _
    have hset : s.setDestination s.getDestination
        = s.setRelativeDisplacement (toInt64 s.m_displacement.bits) := by
      rw [setDestination_relative_eq s _ hd hr, hk, hc]
    have hdisp : (s.setRelativeDisplacement (toInt64 s.m_displacement.bits)).m_displacement
        = s.m_displacement := by
      show (⟨toUInt64 (toInt64 s.m_displacement.bits)⟩ : Displacement) = s.m_displacement
      rw [toUInt64_toInt64, hbits]
    refine ⟨?_, ?_, ?_, fun _ => hc⟩
    · rw [hset]; exact hdisp
    · rw [hset]; exact hr.symm
    · rw [hset, getDestination_relative _ rfl, getDestination_relative s hr,
        size_setRelativeDisplacement, hdisp]
      rfl
  · have hr2 : s.m_isRelative = false := by simpa using hr
    have hdest : s.getDestination = s.m_displacement.bits := by
      simp [getDestination, isDisplacementRelative, hr2, Displacement.Absolute]
    have hset : s.setDestination s.getDestination
        = s.setAbsoluteDisplacement s.m_displacement.bits := by
      rw [hdest]
      simp [setDestination, hasDisplacement, isDisplacementRelative, hd, hr2]
    refine ⟨?_, ?_, ?_, fun h => absurd h (by simp [isDisplacementRelative, hr2])⟩
    · rw [hset]; rfl
    · rw [hset]; exact hr2.symm
    · rw [hset, hdest]; rfl

/-! ## The diagnostic formatter -/

/-- A field written while no width is pending is appended as it is. -/
theorem putField_out (os : OStream) (field : List Char) (hw : os.width = 0) :
    (os.putField field).out = os.out ++ field := by
  unfold OStream.putField
  cases os.adjustLeft <;> simp [hw]

/-- C17: the line written for a record is a part that depends on the stream,
the address and the bytes only, then the full name `mnemonic opStr`, then,
exactly when `hasDisplacement` and `isDisplacementRelative` both hold, the
arrow followed by `getDestination` in hexadecimal, and nothing after that; a
relative call is written with the arrow, records without a displacement or
with an absolute one are written without it. -/
theorem streamOut_arrow :
    (∃ head : OStream → Nat → List Nat → List Char, ∀ (os : OStream) (s : Instruction),
      (streamOut os s).out
        = head os s.getAddress s.getBytes ++ s.getFullName.toList ++
            (if s.hasDisplacement = true ∧ s.isDisplacementRelative = true then
              " -> ".toList ++ Nat.toDigits 16 s.getDestination
            else [])) ∧
    (streamOut OStream.fresh call1000).out
      = "1000 [5]: e8 10 00 00 00                call 0x1015 -> 1015".toList ∧
    (streamOut OStream.fresh nop3000).out
      = "3000 [1]: 90                            nop ".toList ∧
    (streamOut OStream.fresh (call1000.setAbsoluteDisplacement 0x7000)).out
      = "1000 [5]: e8 00 70 00 00                call 0x1015".toList := by
  refine ⟨⟨fun os a bytes =>
      ((((((((((os.hex).putUnsigned a).putStr " [").putUnsigned bytes.length).putStr
        "]: ").setfill ' ').setw 30).left).putStr (byteStream bytes).str)).out, ?_⟩,
    by decide, by decide, by decide⟩
  intro os s
  unfold streamOut
  simp only [getAddress, getBytes, size]
  by_cases hc : s.hasDisplacement = true ∧ s.isDisplacementRelative = true
  · rw [if_pos hc]
    simp only [hc.1, hc.2, Bool.and_self, if_true]
    show (((_ : OStream).putStr " -> ").putUnsigned s.getDestination).out = _
    unfold OStream.putUnsigned
    rw [putField_out _ _ rfl]
    unfold OStream.putStr
    rw [putField_out _ _ rfl, putField_out _ _ rfl]
    simp [OStream.putField, OStream.hex, OStream.setfill, OStream.setw, OStream.left]
  · rw [if_neg hc]
    have hb : (s.hasDisplacement && s.isDisplacementRelative) = false := by
      cases h1 : s.hasDisplacement <;> cases h2 : s.isDisplacementRelative <;> simp_all
    simp only [hb]
    show ((_ : OStream).putStr s.getFullName).out = _
    unfold OStream.putStr
    rw [putField_out _ _ rfl]
    simp

/-! ## The calls inside and outside their domain -/

theorem objectBytes_length (d : Displacement) : d.objectBytes.length = 8 := by
  simp [Displacement.objectBytes]

/-- Inside the bounds the copy is defined and leaves the buffer of the total
function. -/
theorem exec_memcpy_inBounds (dst : List Nat) (off : Nat) (src : List Nat)
    (hoff : off < dst.length) (hn : dst.length - off ≤ 8) (hsrc : src.length = 8) :
    Exec.memcpy dst off src (sub64 dst.length off)
      = some (memcpy dst off src (sub64 dst.length off)) := by
  unfold Exec.memcpy
  rw [sub64_of_lt _ _ hoff hn, if_pos ⟨hoff, by omega, by omega⟩]

theorem exec_setRelativeDisplacement_inBounds (s : Instruction) (v : Int)
    (hoff : s.getDisplacementOffset < s.size)
    (hn : s.size - s.getDisplacementOffset ≤ 8) :
    Exec.setRelativeDisplacement s v = some (s.setRelativeDisplacement v) := by
  unfold Exec.setRelativeDisplacement
  unfold getDisplacementOffset size at *
  simp only []
  rw [exec_memcpy_inBounds _ _ _ hoff hn (objectBytes_length _)]
  rfl

theorem exec_setAbsoluteDisplacement_inBounds (s : Instruction) (v : Nat)
    (hoff : s.getDisplacementOffset < s.size)
    (hn : s.size - s.getDisplacementOffset ≤ 8) :
    Exec.setAbsoluteDisplacement s v = some (s.setAbsoluteDisplacement v) := by
  unfold Exec.setAbsoluteDisplacement
  unfold getDisplacementOffset size at *
  simp only []
  rw [exec_memcpy_inBounds _ _ _ hoff hn (objectBytes_length _)]
  rfl

theorem exec_setDestination_inBounds (s : Instruction) (d : Nat)
    (h : s.hasDisplacement = true →
      s.getDisplacementOffset < s.size ∧ s.size - s.getDisplacementOffset ≤ 8) :
    Exec.setDestination s d = some (s.setDestination d) := by
  unfold Exec.setDestination setDestination
  by_cases hd : s.hasDisplacement = true
  · obtain ⟨hoff, hn⟩ := h hd
    by_cases hr : s.isDisplacementRelative = true
    · simp only [hd, hr, Bool.not_true, if_true]
      exact exec_setRelativeDisplacement_inBounds s _ hoff hn
    · simp only [hd, hr, Bool.not_true, if_false]
      exact exec_setAbsoluteDisplacement_inBounds s d hoff hn
  · have hd2 : s.hasDisplacement = false := by simpa using hd
    simp [hd2]

/-- What `setDestination` leaves alone: the flag, the offset and the size. -/
theorem setDestination_keeps (s : Instruction) (d : Nat) :
    (s.setDestination d).hasDisplacement = s.hasDisplacement ∧
    (s.setDestination d).getDisplacementOffset = s.getDisplacementOffset ∧
    (s.setDestination d).size = s.size := by
  by_cases hd : s.m_hasDisplacement = true
  · by_cases hr : s.m_isRelative = true
    · rw [setDestination_relative_eq s d hd hr]
      exact ⟨hd.symm, rfl, size_setRelativeDisplacement s _⟩
    · have h1 : s.setDestination d = s.setAbsoluteDisplacement d := by
        simp [setDestination, hasDisplacement, isDisplacementRelative, hd, hr]
      rw [h1]
      exact ⟨hd.symm, rfl, size_setAbsoluteDisplacement s d⟩
  · have h1 : s.setDestination d = s := by
      simp [setDestination, hasDisplacement, hd]
    rw [h1]
    exact ⟨rfl, rfl, rfl⟩

/-- C2 (amended): for a record with a relative displacement, with
`displacementOffset < size()`, `size() - displacementOffset <= 8` and a byte
length of at most 255, at every address and for every 64-bit target `d`:
`setDestination d` is defined and `getDestination` after it is exactly `d`. -/
theorem setDestination_getDestination (s : Instruction) (d : Nat)
    (hd : s.hasDisplacement = true) (hr : s.isDisplacementRelative = true)
    (hdest : d < 2 ^ 64) (hs : s.size ≤ 255)
    (hoff : s.getDisplacementOffset < s.size)
    (hn : s.size - s.getDisplacementOffset ≤ 8) :
    ∃ t, Exec.setDestination s d = some t ∧ t.getDestination = d :=
  ⟨s.setDestination d, exec_setDestination_inBounds s d (fun _ => ⟨hoff, hn⟩),
    getDestination_setDestination_small s d hd hr hdest hs⟩

theorem setDestination_getDestination_witness :
    (call1000.setAddress 0x2000).size = 5 ∧
    ∃ t, Exec.setDestination (call1000.setAddress 0x2000) 0x1015 = some t ∧
      t.getDestination = 0x1015 :=
  ⟨by decide, setDestination_getDestination (call1000.setAddress 0x2000) 0x1015
    (by decide) (by decide) (by decide) (by decide) (by decide) (by decide)⟩

/-- C4 (as stated, refuted): on `far200` (five bytes, offset 200) the copy of
`setRelativeDisplacement` starts beyond the buffer, and on `wide12` (eleven
bytes from the offset on) it reads past the eight bytes of the union: the call
is undefined, and there is no record after it that reports the value set. -/
theorem setRelativeDisplacement_outside :
    (far200.WF ∧ far200.size = 5 ∧ far200.getDisplacementOffset = 200 ∧
      Exec.setRelativeDisplacement far200 5 = none) ∧
    (wide12.WF ∧ wide12.size = 12 ∧ wide12.getDisplacementOffset = 1 ∧
      Exec.setRelativeDisplacement wide12 5 = none) ∧
    (¬ ∃ t, Exec.setRelativeDisplacement far200 5 = some t ∧
      t.getDisplacement.Relative = 5 ∧ t.isDisplacementRelative = true ∧
      t.hasDisplacement = true) := by
  refine ⟨by decide, by decide, ?_⟩
  rintro ⟨t, h, -⟩
  have hnone : Exec.setRelativeDisplacement far200 5 = none := by decide
  rw [hnone] at h
  cases h

/-- C4 (amended): for every record with `displacementOffset < size()` and
`size() - displacementOffset <= 8`, whatever its flags were, and every signed
64-bit `v`: `setRelativeDisplacement v` is defined, and after it the record
reports `v` as its relative displacement, is relative and has a
displacement. -/
theorem setRelativeDisplacement_fields (s : Instruction) (v : Int)
    (hlo : -(2 : Int) ^ 63 ≤ v) (hhi : v < (2 : Int) ^ 63)
    (hoff : s.getDisplacementOffset < s.size)
    (hn : s.size - s.getDisplacementOffset ≤ 8) :
    ∃ t, Exec.setRelativeDisplacement s v = some t ∧
      t.getDisplacement.Relative = v ∧ t.isDisplacementRelative = true ∧
      t.hasDisplacement = true :=
  ⟨s.setRelativeDisplacement v, exec_setRelativeDisplacement_inBounds s v hoff hn,
    setRelativeDisplacement_members s v hlo hhi⟩

theorem setRelativeDisplacement_fields_witness :
    ∃ t, Exec.setRelativeDisplacement
        (construct 7 0x1000 ⟨0⟩ 1 false [0xE8, 0, 0, 0, 0] "call" "x") (-0xFF0) = some t ∧
      t.getDisplacement.Relative = -0xFF0 ∧ t.isDisplacementRelative = true ∧
      t.hasDisplacement = true :=
  setRelativeDisplacement_fields (construct 7 0x1000 ⟨0⟩ 1 false [0xE8, 0, 0, 0, 0] "call" "x")
    (-0xFF0) (by norm_num) (by norm_num) (by decide) (by decide)

/-- C7 (as stated, refuted): `farAbs200` and `wideAbs12` have an absolute
displacement; on the first (five bytes, offset 200) the copy of
`setDestination` starts beyond the buffer and on the second (eleven bytes from
the offset on) it reads past the union: the call is undefined, and there is no
record after it that holds the target. -/
theorem setDestination_absolute_outside :
    (farAbs200.WF ∧ farAbs200.hasDisplacement = true ∧
      farAbs200.isDisplacementRelative = false ∧ farAbs200.size = 5 ∧
      farAbs200.getDisplacementOffset = 200 ∧
      Exec.setDestination farAbs200 0x1015 = none) ∧
    (wideAbs12.WF ∧ wideAbs12.hasDisplacement = true ∧
      wideAbs12.isDisplacementRelative = false ∧ wideAbs12.size = 12 ∧
      wideAbs12.getDisplacementOffset = 1 ∧
      Exec.setDestination wideAbs12 0x1015 = none) ∧
    (¬ ∃ t, Exec.setDestination farAbs200 0x1015 = some t ∧
      t.getDisplacement.Absolute = 0x1015) := by
  refine ⟨by decide, by decide, ?_⟩
  rintro ⟨t, h, -⟩
  have hnone : Exec.setDestination farAbs200 0x1015 = none := by decide
  rw [hnone] at h
  cases h

/-- C7 (amended): for every record that has an absolute displacement, with
`displacementOffset < size()` and `size() - displacementOffset <= 8`, and
every `d`: `setDestination d` is defined, stores `d` as the absolute
displacement, leaves the record absolute and with a displacement, and
`getDestination` then reports `d`, whatever the address is. -/
theorem setDestination_absolute (s : Instruction) (d : Nat)
    (hd : s.hasDisplacement = true) (hr : s.isDisplacementRelative = false)
    (hoff : s.getDisplacementOffset < s.size)
    (hn : s.size - s.getDisplacementOffset ≤ 8) :
    ∃ t, Exec.setDestination s d = some t ∧
      t.getDisplacement.Absolute = d ∧ t.isDisplacementRelative = false ∧
      t.hasDisplacement = true ∧ t.getDestination = d :=
  ⟨s.setDestination d, exec_setDestination_inBounds s d (fun _ => ⟨hoff, hn⟩),
    setDestination_absolute_members s d hd hr⟩

theorem setDestination_absolute_witness :
    ∃ t, Exec.setDestination (call1000.setAbsoluteDisplacement 0x7000) 0x1015 = some t ∧
      t.getDisplacement.Absolute = 0x1015 ∧ t.isDisplacementRelative = false ∧
      t.hasDisplacement = true ∧ t.getDestination = 0x1015 :=
  setDestination_absolute (call1000.setAbsoluteDisplacement 0x7000) 0x1015 (by decide)
    (by decide) (by decide) (by decide)

/-- C10 (as stated, refuted): on `far200` and `wide12`, which have a
displacement, already the first `setDestination` is undefined (its copy leaves
the buffer, or reads past the union), so two calls in a row leave no record
at all. -/
theorem setDestination_twice_outside :
    (far200.WF ∧ far200.hasDisplacement = true ∧ far200.size = 5 ∧
      far200.getDisplacementOffset = 200 ∧ Exec.setDestination far200 0x1015 = none) ∧
    (wide12.WF ∧ wide12.hasDisplacement = true ∧ wide12.size = 12 ∧
      wide12.getDisplacementOffset = 1 ∧ Exec.setDestination wide12 0x1015 = none) ∧
    (¬ ∃ t, Exec.setDestination far200 0x1015 = some t ∧
      Exec.setDestination t 0x1015 = some t) := by
  refine ⟨by decide, by decide, ?_⟩
  rintro ⟨t, h, -⟩
  have hnone : Exec.setDestination far200 0x1015 = none := by decide
  rw [hnone] at h
  cases h

/-- C10 (amended): `setDestination` is idempotent on every record that has no
displacement or has `displacementOffset < size()` and
`size() - displacementOffset <= 8`: for every `d` the call is defined, and a
second `setDestination d` right after it is defined and leaves the whole
record (displacement, flags, bytes and every other field) as the first call
left it. -/
theorem setDestination_idempotent (s : Instruction) (d : Nat)
    (h : s.hasDisplacement = true →
      s.getDisplacementOffset < s.size ∧ s.size - s.getDisplacementOffset ≤ 8) :
    ∃ t, Exec.setDestination s d = some t ∧ Exec.setDestination t d = some t := by
  refine ⟨s.setDestination d, exec_setDestination_inBounds s d h, ?_⟩
  obtain ⟨hflag, hoffset, hsize⟩ := setDestination_keeps s d
  rw [exec_setDestination_inBounds (s.setDestination d) d
    (by rw [hflag, hoffset, hsize]; exact h), setDestination_twice]

theorem setDestination_idempotent_witness :
    ∃ t, Exec.setDestination (call1000.setAddress 0x2000) 0x1015 = some t ∧
      Exec.setDestination t 0x1015 = some t :=
  setDestination_idempotent (call1000.setAddress 0x2000) 0x1015
    (fun _ => ⟨by decide, by decide⟩)

/-- C15 (amended): for every record with `hasDisplacement` true, the flag is
still true after `setAddress` and after `setDisplacementOffset`, and, when
`displacementOffset < size()` and `size() - displacementOffset <= 8`, each of
`setDestination`, `setRelativeDisplacement` and `setAbsoluteDisplacement` is
defined and leaves the flag true. -/
theorem hasDisplacement_kept (s : Instruction) (h : s.hasDisplacement = true) :
    (∀ a, (s.setAddress a).hasDisplacement = true) ∧
    (∀ o, (s.setDisplacementOffset o).hasDisplacement = true) ∧
    (s.getDisplacementOffset < s.size → s.size - s.getDisplacementOffset ≤ 8 →
      (∀ d, ∃ t, Exec.setDestination s d = some t ∧ t.hasDisplacement = true) ∧
      (∀ v, ∃ t, Exec.setRelativeDisplacement s v = some t ∧ t.hasDisplacement = true) ∧
      (∀ v, ∃ t, Exec.setAbsoluteDisplacement s v = some t ∧ t.hasDisplacement = true)) := by
  obtain ⟨h1, h2, h3, h4, h5⟩ := hasDisplacement_members s h
  refine ⟨h1, h2, fun hoff hn => ⟨fun d => ?_, fun v => ?_, fun v => ?_⟩⟩
  · exact ⟨_, exec_setDestination_inBounds s d (fun _ => ⟨hoff, hn⟩), h3 d⟩
  · exact ⟨_, exec_setRelativeDisplacement_inBounds s v hoff hn, h4 v⟩
  · exact ⟨_, exec_setAbsoluteDisplacement_inBounds s v hoff hn, h5 v⟩

theorem hasDisplacement_kept_witness :
    (call1000.setAddress 0x2000).hasDisplacement = true ∧
    (call1000.setDisplacementOffset 2).hasDisplacement = true ∧
    (∃ t, Exec.setDestination call1000 0x3000 = some t ∧ t.hasDisplacement = true) ∧
    (∃ t, Exec.setAbsoluteDisplacement call1000 0x7000 = some t ∧
      t.hasDisplacement = true) := by
  have h := hasDisplacement_kept call1000 (by decide)
  have hin := h.2.2 (by decide) (by decide)
  exact ⟨h.1 0x2000, h.2.1 2, hin.1 0x3000, hin.2.2 0x7000⟩

/-- C20 (as stated, refuted): `far200` and `wide12` are well formed, have a
displacement and fewer than 255 bytes, and `setDestination (getDestination)`
is undefined on them (its copy leaves the buffer, or reads past the union):
there is no record after the call whose displacement could be unchanged. -/
theorem setDestination_getDestination_self_outside :
    (far200.WF ∧ far200.hasDisplacement = true ∧ far200.size = 5 ∧
      far200.getDisplacementOffset = 200 ∧
      Exec.setDestination far200 far200.getDestination = none) ∧
    (wide12.WF ∧ wide12.hasDisplacement = true ∧ wide12.size = 12 ∧
      wide12.getDisplacementOffset = 1 ∧
      Exec.setDestination wide12 wide12.getDestination = none) ∧
    (farAbs200.WF ∧ farAbs200.hasDisplacement = true ∧ farAbs200.size = 5 ∧
      Exec.setDestination farAbs200 farAbs200.getDestination = none) ∧
    (¬ ∃ t, Exec.setDestination far200 far200.getDestination = some t ∧
      t.getDisplacement = far200.getDisplacement) := by
  refine ⟨by decide, by decide, by decide, ?_⟩
  rintro ⟨t, h, -⟩
  have hnone : Exec.setDestination far200 far200.getDestination = none := by decide
  rw [hnone] at h
  cases h

/-- C20 (amended): for a well-formed record that has a displacement, at most
255 bytes, `displacementOffset < size()` and
`size() - displacementOffset <= 8`, relative or absolute,
`setDestination (getDestination)` is defined and leaves `getDisplacement`,
`isDisplacementRelative` and `getDestination` unchanged; for a relative
record, the displacement computed from the address to
`address + displacement + size` is the displacement itself. -/
theorem setDestination_getDestination_self (s : Instruction) (hwf : s.WF)
    (hd : s.hasDisplacement = true) (hs : s.size ≤ 255)
    (hoff : s.getDisplacementOffset < s.size)
    (hn : s.size - s.getDisplacementOffset ≤ 8) :
    (∃ t, Exec.setDestination s s.getDestination = some t ∧
      t.getDisplacement = s.getDisplacement ∧
      t.isDisplacementRelative = s.isDisplacementRelative ∧
      t.getDestination = s.getDestination) ∧
    (s.isDisplacementRelative = true →
      calculateRelativeDisplacement s.getAddress s.getDestination s.size
        = s.getDisplacement.Relative) := by
  obtain ⟨h1, h2, h3, h4⟩ := setDestination_getDestination_members s hwf hd hs
  exact ⟨⟨_, exec_setDestination_inBounds s _ (fun _ => ⟨hoff, hn⟩), h1, h2, h3⟩, h4⟩

theorem setDestination_getDestination_self_witness :
    (∃ t, Exec.setDestination call1000 call1000.getDestination = some t ∧
      t.getDisplacement = call1000.getDisplacement ∧
      t.isDisplacementRelative = call1000.isDisplacementRelative ∧
      t.getDestination = call1000.getDestination) ∧
    calculateRelativeDisplacement call1000.getAddress call1000.getDestination call1000.size
      = call1000.getDisplacement.Relative := by
  have h := setDestination_getDestination_self call1000 (by decide) (by decide) (by decide)
    (by decide) (by decide)
  exact ⟨h.1, h.2 (by decide)⟩

end PLH
